import Mathlib

/-!
Verification of the OpenHamClock spot-processing core against its design
specification.

The development shallowly embeds the JavaScript source:

* `useDXClusterData` (the spot aggregator: merge / dedup / retention /
  capacity, and its filter predicate `applyFilters`);
* `gridToLatLon` (Maidenhead locator decoding, identical copies in
  `usePSKReporter.js` and `useWSPR.js`);
* `getGreatCirclePath` (spherical interpolation in `useWSPR.js`);
* the SNR classifiers `getSNRColor` / `getLineWeight` (`useWSPR.js`) and
  `getSnrColor` (`PSKReporterPanel.jsx`);
* the report-processing pipeline of `usePSKReporter`.

JavaScript strings are modelled as `List Char` (or as lists of UTF-16 code
units where the code manipulates `charCodeAt` results), numbers as `Int`/`ℚ`
where the code only needs exact arithmetic, and as `ℝ` for the trigonometric
interpolator.  A JS value that may be `undefined`/`null` is an `Option`; a JS
number that may be non-finite (NaN) is also an `Option`, with `none` standing
for the non-finite result and all arithmetic propagating it.
-/

/-! ## Spot aggregator (`useDXClusterData`, src/unnamed/part_000)

State updates of `setAllData`: merge the fetched batch into a `Map` keyed by
the dash-joined identity key, evict entries older than the retention window,
sort newest first and keep at most 200 entries.
-/

/-- One DX-cluster report as handled by `useDXClusterData`.  Strings are
lists of characters; a field that may be `undefined` in JS is an `Option`.
Timestamps are epoch milliseconds (`Int`). -/
structure Spot where
  dxCall : Option (List Char)
  freq : Option (List Char)
  spotter : Option (List Char)
  comment : Option (List Char)
  timestamp : Option Int
deriving DecidableEq

instance : Inhabited Spot := ⟨⟨none, none, none, none, none⟩⟩

/-- JS template-literal rendering of a possibly-missing field: `undefined`
interpolates as the text `undefined`. -/
def jsField : Option (List Char) → List Char
  | some s => s
  | none => "undefined".data

/-- The merge key of `setAllData`: the template literal
`dxCall-freq-spotter` (string concatenation with `-` separators). -/
def keyOf (s : Spot) : List Char :=
  jsField s.dxCall ++ '-' :: (jsField s.freq ++ '-' :: jsField s.spotter)

/-- JS `t || dflt` on a possibly-missing number: `undefined` and `0` are
falsy and fall back to the default. -/
def jsOrTs (t : Option Int) (dflt : Int) : Int :=
  match t with
  | some v => if v = 0 then dflt else v
  | none => dflt

/-- The object stored for an incoming batch item:
`{ ...item, timestamp: item.timestamp || now }`. -/
def stamp (item : Spot) (now : Int) : Spot :=
  { item with timestamp := some (jsOrTs item.timestamp now) }

/-- JS `Map.prototype.set` on an association list: replace the value at an
existing key in place, otherwise append the new pair. -/
def mapSet (m : List (List Char × Spot)) (k : List Char) (v : Spot) :
    List (List Char × Spot) :=
  match m with
  | [] => [(k, v)]
  | (k', v') :: rest => if k' = k then (k, v) :: rest else (k', v') :: mapSet rest k v

/-- `new Map(pairs)`: insert the pairs left to right. -/
def buildMap (l : List (List Char × Spot)) : List (List Char × Spot) :=
  l.foldl (fun m kv => mapSet m kv.1 kv.2) []

/-- The merge phase of `setAllData`: build a `Map` of the previous entries
keyed by `keyOf`, then `set` every batch item under its key, stamped with
`timestamp: item.timestamp || now`. -/
def mergeBatch (prev newData : List Spot) (now : Int) : List (List Char × Spot) :=
  newData.foldl (fun m item => mapSet m (keyOf item) (stamp item now))
    (buildMap (prev.map fun i => (keyOf i, i)))

/-- Sort key of the comparator `(a, b) => (b.timestamp || 0) - (a.timestamp || 0)`. -/
def tsOrZero (s : Spot) : Int := jsOrTs s.timestamp 0

/-- The retention test `(now - (item.timestamp || now)) < spotRetentionMs`. -/
def freshB (now ret : Int) (s : Spot) : Bool :=
  decide (now - jsOrTs s.timestamp now < ret)

/-- One insertion step of a stable newest-first insertion sort: `a` is placed
before the first element that is strictly older, hence after all elements
with the same or a newer timestamp (stability, as with JS `Array.sort`). -/
def insertSpot (a : Spot) : List Spot → List Spot
  | [] => [a]
  | b :: l => if tsOrZero b < tsOrZero a then a :: b :: l else b :: insertSpot a l

/-- Stable sort, newest first by `timestamp || 0`, modelling
`.sort((a, b) => (b.timestamp || 0) - (a.timestamp || 0))` (JS `Array.sort`
is stable, so any stable sort on the same key is extensionally identical). -/
def sortSpots : List Spot → List Spot
  | [] => []
  | a :: l => insertSpot a (sortSpots l)

/-- One `setAllData` update of the fetch effect: merge the batch, filter out
items older than the retention time, sort newest first and `slice(0, 200)`. -/
def ingest (prev newData : List Spot) (now ret : Int) : List Spot :=
  (sortSpots (((mergeBatch prev newData now).map Prod.snd).filter (freshB now ret))).take 200

/-- The retention-change effect (`useEffect` on `spotRetentionMs`):
`setAllData(prev => prev.filter(item => now - (item.timestamp || now) < spotRetentionMs))`. -/
def retentionCleanup (prev : List Spot) (now ret : Int) : List Spot :=
  prev.filter (freshB now ret)

lemma insertSpot_perm (a : Spot) (l : List Spot) : (insertSpot a l).Perm (a :: l) := by
  induction l with
  | nil => simp [insertSpot]
  | cons b t ih =>
    rw [insertSpot]
    split
    · exact List.Perm.refl _
    · exact ((ih.cons b).trans (List.Perm.swap a b t)).symm.symm

lemma sortSpots_perm (l : List Spot) : (sortSpots l).Perm l := by
  induction l with
  | nil => simp [sortSpots]
  | cons a t ih => exact (insertSpot_perm a (sortSpots t)).trans (ih.cons a)

lemma insertSpot_pairwise {a : Spot} {l : List Spot}
    (h : l.Pairwise (fun x y => tsOrZero y ≤ tsOrZero x)) :
    (insertSpot a l).Pairwise (fun x y => tsOrZero y ≤ tsOrZero x) := by
  induction l with
  | nil => simp [insertSpot]
  | cons b t ih =>
    rw [insertSpot]
    rcases List.pairwise_cons.mp h with ⟨hb, ht⟩
    split
    · rename_i hba
      refine List.pairwise_cons.mpr ⟨?_, h⟩
      intro x hx
      rcases List.mem_cons.mp hx with rfl | hx
      · exact le_of_lt hba
      · exact le_trans (hb x hx) (le_of_lt hba)
    · rename_i hba
      refine List.pairwise_cons.mpr ⟨?_, ih ht⟩
      intro x hx
      rcases List.mem_cons.mp ((insertSpot_perm a t).mem_iff.mp hx) with rfl | hx
      · exact le_of_not_lt hba
      · exact hb x hx

lemma sortSpots_pairwise (l : List Spot) :
    (sortSpots l).Pairwise (fun x y => tsOrZero y ≤ tsOrZero x) := by
  induction l with
  | nil => simp [sortSpots]
  | cons a t ih => exact insertSpot_pairwise ih

/-- C1: after every `setAllData` merge (for any previous retained set, hence
after each ingest of any call sequence from the empty set): every retained
entry is younger than the retention window; at most 200 entries are
retained; the retained list is, up to permutation, a most-recent-first
selection of `min 200 n` of the `n` age-surviving entries, every dropped
entry being at most as recent as every kept one; and a retention-window
change immediately re-filters the existing set, leaving no stale entry. -/
theorem ingest_retention_capacity (prev newData : List Spot) (now ret : Int) :
    (∀ s ∈ ingest prev newData now ret, now - jsOrTs s.timestamp now < ret) ∧
    (ingest prev newData now ret).length ≤ 200 ∧
    (ingest prev newData now ret).length =
      min 200 (((mergeBatch prev newData now).map Prod.snd).filter (freshB now ret)).length ∧
    (∃ dropped,
      (ingest prev newData now ret ++ dropped).Perm
        (((mergeBatch prev newData now).map Prod.snd).filter (freshB now ret)) ∧
      ∀ x ∈ ingest prev newData now ret, ∀ y ∈ dropped, tsOrZero y ≤ tsOrZero x) ∧
    (∀ s ∈ retentionCleanup prev now ret, now - jsOrTs s.timestamp now < ret) := by
  set valid := ((mergeBatch prev newData now).map Prod.snd).filter (freshB now ret) with hvalid
  have hmemfresh : ∀ s ∈ ingest prev newData now ret, now - jsOrTs s.timestamp now < ret := by
    intro s hs
    have hs' : s ∈ sortSpots valid := List.take_subset _ _ hs
    have hs'' : s ∈ valid := (sortSpots_perm valid).mem_iff.mp hs'
    have := (List.mem_filter.mp hs'').2
    simpa [freshB] using this
  refine ⟨hmemfresh, ?_, ?_, ?_, ?_⟩
  · simp [ingest, List.length_take]
  · have hlen : (sortSpots valid).length = valid.length := (sortSpots_perm valid).length_eq
    simp [ingest, List.length_take, hlen]
  · refine ⟨(sortSpots valid).drop 200, ?_, ?_⟩
    · have : ingest prev newData now ret ++ (sortSpots valid).drop 200 = sortSpots valid := by
        simp [ingest]
      rw [this]
      exact sortSpots_perm valid
    · intro x hx y hy
      have hp := sortSpots_pairwise valid
      have hsplit := List.take_append_drop 200 (sortSpots valid)
      rw [← hsplit] at hp
      exact ((List.pairwise_append.mp hp).2.2) x hx y hy
  · intro s hs
    have := (List.mem_filter.mp hs).2
    simpa [freshB] using this

/-- A concrete well-formed spot used by witnesses. -/
def spotW : Spot :=
  ⟨some ['A'], some ['7'], some ['B'], none, some 5⟩

/-- Concrete instantiation of `ingest_retention_capacity`: a single freshly
ingested spot is retained and satisfies the retention bound. -/
theorem ingest_retention_capacity_witness :
    ((5 : Int) - jsOrTs spotW.timestamp 5 < 100) ∧
    (ingest [] [spotW] 5 100).length ≤ 200 := by
  refine ⟨?_, (ingest_retention_capacity [] [spotW] 5 100).2.1⟩
  exact (ingest_retention_capacity [] [spotW] 5 100).1 spotW (by decide)

/-! ### Key bookkeeping of the merge map -/

lemma keys_mapSet (m : List (List Char × Spot)) (k : List Char) (v : Spot) :
    (mapSet m k v).map Prod.fst =
      if k ∈ m.map Prod.fst then m.map Prod.fst else m.map Prod.fst ++ [k] := by
  induction m with
  | nil => simp [mapSet]
  | cons kv rest ih =>
    obtain ⟨k', v'⟩ := kv
    by_cases hk : k' = k
    · subst hk
      simp [mapSet]
    · simp only [mapSet, if_neg hk, List.map_cons]
      rw [ih]
      by_cases hmem : k ∈ rest.map Prod.fst
      · simp [hmem, Ne.symm hk]
      · simp [hmem, Ne.symm hk]

lemma mem_keys_mapSet {m : List (List Char × Spot)} {k k' : List Char} {v : Spot} :
    k' ∈ (mapSet m k v).map Prod.fst ↔ k' = k ∨ k' ∈ m.map Prod.fst := by
  rw [keys_mapSet]
  by_cases hmem : k ∈ m.map Prod.fst
  · simp only [if_pos hmem]
    constructor
    · exact Or.inr
    · rintro (rfl | h)
      · exact hmem
      · exact h
  · simp [if_neg hmem, or_comm]

lemma nodup_keys_mapSet {m : List (List Char × Spot)} {k : List Char} {v : Spot}
    (h : (m.map Prod.fst).Nodup) : ((mapSet m k v).map Prod.fst).Nodup := by
  rw [keys_mapSet]
  by_cases hmem : k ∈ m.map Prod.fst
  · simpa [if_pos hmem] using h
  · rw [if_neg hmem]
    refine List.Nodup.append h (List.nodup_singleton k) ?_
    intro a ha hb
    rw [List.mem_singleton] at hb
    subst hb
    exact hmem ha

lemma nodup_keys_foldl_mapSet {β : Type} (f : β → List Char) (g : β → Spot) :
    ∀ (l : List β) (m : List (List Char × Spot)), (m.map Prod.fst).Nodup →
      ((l.foldl (fun m b => mapSet m (f b) (g b)) m).map Prod.fst).Nodup := by
  intro l
  induction l with
  | nil => intro m h; simpa using h
  | cons b t ih =>
    intro m h
    exact ih (mapSet m (f b) (g b)) (nodup_keys_mapSet h)

lemma nodup_keys_buildMap (l : List (List Char × Spot)) :
    ((buildMap l).map Prod.fst).Nodup := by
  have h := nodup_keys_foldl_mapSet (fun kv : List Char × Spot => kv.1)
    (fun kv => kv.2) l [] (by simp)
  simpa [buildMap] using h

lemma nodup_keys_mergeBatch (prev batch : List Spot) (now : Int) :
    ((mergeBatch prev batch now).map Prod.fst).Nodup := by
  exact nodup_keys_foldl_mapSet keyOf (fun item => stamp item now) batch _
    (nodup_keys_buildMap _)

lemma mem_keys_foldl_of_mem {β : Type} (f : β → List Char) (g : β → Spot) :
    ∀ (l : List β) (m : List (List Char × Spot)) (k : List Char), k ∈ m.map Prod.fst →
      k ∈ (l.foldl (fun m b => mapSet m (f b) (g b)) m).map Prod.fst := by
  intro l
  induction l with
  | nil => intro m k h; simpa using h
  | cons b t ih =>
    intro m k h
    exact ih (mapSet m (f b) (g b)) k (mem_keys_mapSet.mpr (Or.inr h))

lemma mem_keys_foldl_of_mem_batch {β : Type} (f : β → List Char) (g : β → Spot) :
    ∀ (l : List β) (m : List (List Char × Spot)) (b : β), b ∈ l →
      f b ∈ (l.foldl (fun m x => mapSet m (f x) (g x)) m).map Prod.fst := by
  intro l
  induction l with
  | nil => intro m b h; cases h
  | cons c t ih =>
    intro m b h
    rcases List.mem_cons.mp h with rfl | h
    · exact mem_keys_foldl_of_mem f g t _ (f b) (mem_keys_mapSet.mpr (Or.inl rfl))
    · exact ih _ b h

lemma mapSet_mem_self (m : List (List Char × Spot)) (k : List Char) (v : Spot) :
    (k, v) ∈ mapSet m k v := by
  induction m with
  | nil => simp [mapSet]
  | cons kv rest ih =>
    obtain ⟨k', v'⟩ := kv
    by_cases hk : k' = k
    · subst hk; simp [mapSet]
    · simp only [mapSet, if_neg hk]
      exact List.mem_cons_of_mem _ ih

lemma mapSet_mem_of_ne {m : List (List Char × Spot)} {kv : List Char × Spot}
    {k : List Char} {v : Spot} (h : kv ∈ m) (hne : kv.1 ≠ k) : kv ∈ mapSet m k v := by
  induction m with
  | nil => cases h
  | cons kv' rest ih =>
    obtain ⟨k', v'⟩ := kv'
    by_cases hk : k' = k
    · subst hk
      rcases List.mem_cons.mp h with rfl | h
      · exact absurd rfl hne
      · simp only [mapSet, if_pos rfl]
        exact List.mem_cons_of_mem _ h
    · simp only [mapSet, if_neg hk]
      rcases List.mem_cons.mp h with rfl | h
      · exact List.mem_cons_self _ _
      · exact List.mem_cons_of_mem _ (ih h)

lemma mapSet_eq_of_key {m : List (List Char × Spot)} {kv : List Char × Spot}
    {k : List Char} {v : Spot} (hN : (m.map Prod.fst).Nodup)
    (h : kv ∈ mapSet m k v) (hk : kv.1 = k) : kv.2 = v := by
  induction m with
  | nil =>
    simp only [mapSet, List.mem_singleton] at h
    rw [h]
  | cons kv' rest ih =>
    obtain ⟨k', v'⟩ := kv'
    simp only [List.map_cons, List.nodup_cons] at hN
    by_cases hkk : k' = k
    · subst hkk
      simp only [mapSet, if_pos rfl] at h
      rcases List.mem_cons.mp h with rfl | h
      · rfl
      · exact absurd (hk ▸ List.mem_map_of_mem Prod.fst h) hN.1
    · simp only [mapSet, if_neg hkk] at h
      rcases List.mem_cons.mp h with rfl | h
      · exact absurd hk hkk
      · exact ih hN.2 h

/-! ### C6: malformed batch items -/

/-- A batch item with a missing identity field (`dxCall` is `undefined`). -/
def malformedSpot : Spot := ⟨none, some ['7'], some ['W'], none, some 5⟩

/-- C6 counterexample: a raw report missing the destination-call identity
field is not skipped — it enters the retained set (keyed with the text
`undefined`), contradicting the claimed skip semantics. -/
theorem malformed_spot_enters :
    malformedSpot.dxCall = none ∧
    stamp malformedSpot 5 ∈ ingest [] [malformedSpot] 5 100 := by decide

/-- C6 amended: no batch item is skipped: the merge processes every item of
the batch (it never aborts), and every item — including one with missing
identity fields, whose key then contains the interpolated text `undefined` —
ends up with its key present in the merged map. -/
theorem every_batch_item_merged (prev batch : List Spot) (now : Int) :
    ∀ b ∈ batch, keyOf b ∈ (mergeBatch prev batch now).map Prod.fst := by
  intro b hb
  exact mem_keys_foldl_of_mem_batch keyOf (fun item => stamp item now) batch _ b hb

/-- Concrete instantiation of `every_batch_item_merged` on a malformed item. -/
theorem every_batch_item_merged_witness :
    keyOf malformedSpot ∈ (mergeBatch [] [malformedSpot] 5).map Prod.fst :=
  every_batch_item_merged [] [malformedSpot] 5 malformedSpot (by decide)

/-! ### C7: merge-on-key replacement semantics -/

/-- A previously retained spot, ingested at time 100. -/
def oldSpot : Spot := ⟨some ['A'], some ['7'], some ['B'], none, some 100⟩

/-- An incoming report with the same identity key and no timestamp. -/
def reSpot : Spot := ⟨some ['A'], some ['7'], some ['B'], some ['x'], none⟩

/-- C7 counterexample: re-ingesting a report with the same key and no
explicit timestamp resets the stored timestamp to `now` (here 200); the
original value 100 is not preserved. -/
theorem reingest_resets_timestamp :
    keyOf reSpot = keyOf oldSpot ∧
    (mergeBatch [oldSpot] [reSpot] 200).map (fun kv => kv.2.timestamp) = [some 200] ∧
    some (200 : Int) ≠ some (100 : Int) := by decide

/-- C7 amended: merging one incoming report replaces the whole entry at its
key — the stored timestamp becomes `item.timestamp || now`, so the original
ingest time is lost whenever the incoming record lacks a (truthy) timestamp —
and every retained entry under a different key is unchanged. -/
theorem merge_replaces_entry (prev : List Spot) (item : Spot) (now : Int) :
    ((keyOf item, stamp item now) ∈ mergeBatch prev [item] now) ∧
    (∀ kv ∈ mergeBatch prev [item] now, kv.1 = keyOf item → kv.2 = stamp item now) ∧
    (∀ kv ∈ buildMap (prev.map fun i => (keyOf i, i)), kv.1 ≠ keyOf item →
      kv ∈ mergeBatch prev [item] now) ∧
    (stamp item now).timestamp = some (jsOrTs item.timestamp now) := by
  have hfold : mergeBatch prev [item] now =
      mapSet (buildMap (prev.map fun i => (keyOf i, i))) (keyOf item) (stamp item now) := rfl
  refine ⟨?_, ?_, ?_, rfl⟩
  · rw [hfold]
    exact mapSet_mem_self _ _ _
  · intro kv hkv hk
    rw [hfold] at hkv
    exact mapSet_eq_of_key (nodup_keys_buildMap _) hkv hk
  · intro kv hkv hne
    rw [hfold]
    exact mapSet_mem_of_ne hkv hne

/-- A retained spot whose key differs from `reSpot`'s. -/
def spotC : Spot := ⟨some ['C'], some ['9'], some ['D'], none, some 50⟩

/-- Concrete instantiation of `merge_replaces_entry`: an entry under another
key survives the merge unchanged. -/
theorem merge_replaces_entry_witness :
    (keyOf spotC, spotC) ∈ mergeBatch [spotC] [reSpot] 200 := by
  have h := merge_replaces_entry [spotC] reSpot 200
  exact h.2.2.1 (keyOf spotC, spotC) (by decide) (by decide)

/-! ### C9: injectivity of the dash-joined identity key -/

lemma append_sep_inj {sep : Char} :
    ∀ {a a' t t' : List Char}, sep ∉ a → sep ∉ a' →
      a ++ sep :: t = a' ++ sep :: t' → a = a' ∧ t = t' := by
  intro a
  induction a with
  | nil =>
    intro a' t t' _ ha' h
    cases a' with
    | nil => simpa using h
    | cons y ys =>
      simp only [List.nil_append, List.cons_append, List.cons.injEq] at h
      exact absurd (by rw [← h.1]; exact List.mem_cons_self _ _) ha'
  | cons x xs ih =>
    intro a' t t' ha ha' h
    cases a' with
    | nil =>
      simp only [List.cons_append, List.nil_append, List.cons.injEq] at h
      exact absurd (by rw [h.1]; exact List.mem_cons_self _ _) ha
    | cons y ys =>
      simp only [List.cons_append, List.cons.injEq] at h
      obtain ⟨rfl, h2⟩ := h
      have hxs : sep ∉ xs := fun hm => ha (List.mem_cons_of_mem _ hm)
      have hys : sep ∉ ys := fun hm => ha' (List.mem_cons_of_mem _ hm)
      obtain ⟨rfl, ht⟩ := ih hxs hys h2
      exact ⟨rfl, ht⟩

/-- C9 amended: the key `dxCall-freq-spotter` is injective on reports whose
rendered `dxCall` and `freq` fields contain no dash; with a dash inside a
field (portable/SSID-suffixed callsigns) distinct triples can share a key. -/
theorem keyOf_inj (s t : Spot)
    (h1 : '-' ∉ jsField s.dxCall) (h2 : '-' ∉ jsField t.dxCall)
    (h3 : '-' ∉ jsField s.freq) (h4 : '-' ∉ jsField t.freq)
    (h : keyOf s = keyOf t) :
    jsField s.dxCall = jsField t.dxCall ∧ jsField s.freq = jsField t.freq ∧
      jsField s.spotter = jsField t.spotter := by
  unfold keyOf at h
  obtain ⟨e1, h'⟩ := append_sep_inj h1 h2 h
  obtain ⟨e2, e3⟩ := append_sep_inj h3 h4 h'
  exact ⟨e1, e2, e3⟩

/-- Reports with different (dxCall, freq, spotter) triples but equal keys. -/
def spotP : Spot := ⟨some "N0X".data, some "1".data, some "2-S".data, none, some 5⟩

/-- Second report of the colliding pair. -/
def spotQ : Spot := ⟨some "N0X-1".data, some "2".data, some "S".data, none, some 6⟩

/-- C9 counterexample: two reports with different identity triples receive
the same key and collapse into a single retained entry after ingest. -/
theorem key_collision :
    spotP.dxCall ≠ spotQ.dxCall ∧ keyOf spotP = keyOf spotQ ∧
    (ingest [] [spotP, spotQ] 7 100).length = 1 := by decide

/-- Two reports with dash-free key fields and equal keys. -/
def spotR : Spot := ⟨some "K1".data, some "7".data, some "W2".data, some "a".data, some 5⟩

/-- Same key fields as `spotR`, different payload. -/
def spotS : Spot := ⟨some "K1".data, some "7".data, some "W2".data, none, some 9⟩

/-- Concrete instantiation of `keyOf_inj`. -/
theorem keyOf_inj_witness : jsField spotR.freq = jsField spotS.freq :=
  (keyOf_inj spotR spotS (by decide) (by decide) (by decide) (by decide) (by decide)).2.1

/-! ## Filter predicate engine (`applyFilters` in `useDXClusterData`)

`getCallsignInfo`, `getBandFromFreq` and `detectMode` live in
`../utils/callsign.js`, an external collaborator not part of the core; they
are passed as abstract parameters (`resolve`, `bandOf`, `modeOf`).
-/

/-- Resolved callsign metadata returned by the external `getCallsignInfo`
(unresolved fields are `undefined`). -/
structure CallInfo where
  cqZone : Option Nat
  ituZone : Option Nat
  continent : Option (List Char)
deriving DecidableEq

/-- One item of the DX-cluster feed as seen by `applyFilters`. -/
structure DXItem where
  dxCall : Option (List Char)
  call : Option (List Char)
  spotter : Option (List Char)
  freq : List Char
  comment : List Char
deriving DecidableEq

/-- The recognized filter options; an empty list / empty string models an
absent or empty criterion (both are inactive in the source). -/
structure DXFilters where
  watchlistOnly : Bool := false
  watchlist : List (List Char) := []
  excludeList : List (List Char) := []
  cqZones : List Nat := []
  ituZones : List Nat := []
  continents : List (List Char) := []
  bands : List (List Char) := []
  modes : List (List Char) := []
  callsign : List Char := []
deriving DecidableEq

/-- `.toUpperCase()` on a character-list string. -/
def upperStr (s : List Char) : List Char := s.map Char.toUpper

/-- JS `a || b` on possibly-undefined strings (`item.dxCall || item.call`):
`undefined` and the empty string are falsy. -/
def jsOrStr (a b : Option (List Char)) : Option (List Char) :=
  match a with
  | some s => if s = [] then b else some s
  | none => b

/-- `c?.toUpperCase().includes(w.toUpperCase())`: `undefined` short-circuits
to a falsy result. -/
def optIncludes (c : Option (List Char)) (w : List Char) : Bool :=
  match c with
  | some s => decide (upperStr w <:+: upperStr s)
  | none => false

/-- `c?.toUpperCase().startsWith(w.toUpperCase())`: `undefined` short-circuits
to a falsy result. -/
def optStartsWith (c : Option (List Char)) (w : List Char) : Bool :=
  match c with
  | some s => (upperStr w).isPrefixOf (upperStr s)
  | none => false

/-- `String.prototype.trim`. -/
def jsTrim (s : List Char) : List Char :=
  ((s.dropWhile Char.isWhitespace).reverse.dropWhile Char.isWhitespace).reverse

/-- A zone criterion body: `!zone || !sel.includes(zone)` fails the report;
note a zone of 0 is falsy in JS. -/
def zonePass (zone : Option Nat) (sel : List Nat) : Bool :=
  match zone with
  | some z => decide (z ≠ 0) && sel.contains z
  | none => false

/-- Truthy continent contained in the selected set. -/
def contTruthyIn (c : Option (List Char)) (sel : List (List Char)) : Bool :=
  match c with
  | some s => decide (s ≠ []) && sel.contains s
  | none => false

/-- Watchlist criterion: active when `watchlistOnly && watchlist?.length > 0`;
passes when some watchlist entry occurs in the DX call. -/
def watchlistCheck (wOnly : Bool) (wl : List (List Char)) (call : Option (List Char)) : Bool :=
  !(wOnly && decide (wl.length > 0)) || wl.any (fun w => optIncludes call w)

/-- Exclude-list criterion: fails when some entry is a prefix of the DX call. -/
def excludeCheck (ex : List (List Char)) (call : Option (List Char)) : Bool :=
  !(decide (ex.length > 0)) || !(ex.any (fun e => optStartsWith call e))

/-- CQ/ITU-zone criterion (evaluated on the spotter's resolved zone). -/
def zoneCheck (sel : List Nat) (zone : Option Nat) : Bool :=
  !(decide (sel.length > 0)) || zonePass zone sel

/-- Continent criterion: the spotter must resolve inside the selected set and
the DX station must not resolve inside it. -/
def continentCheck (sel : List (List Char)) (spotterC dxC : Option (List Char)) : Bool :=
  !(decide (sel.length > 0)) || (contTruthyIn spotterC sel && !(contTruthyIn dxC sel))

/-- Band criterion: `!bands.includes(band)` fails (an unresolved band is
never contained in the selection). -/
def bandCheck (sel : List (List Char)) (band : Option (List Char)) : Bool :=
  !(decide (sel.length > 0)) ||
    (match band with
     | some b => sel.contains b
     | none => false)

/-- Mode criterion: `!mode || !modes.includes(mode)` fails. -/
def modeCheck (sel : List (List Char)) (mode : Option (List Char)) : Bool :=
  !(decide (sel.length > 0)) ||
    (match mode with
     | some m => decide (m ≠ []) && sel.contains m
     | none => false)

/-- Callsign-search criterion: active when the trimmed search text is
nonempty; matches either station. -/
def callsignCheck (cs : List Char) (call spotter : Option (List Char)) : Bool :=
  decide (jsTrim cs = []) ||
    (optIncludes call (jsTrim cs) || optIncludes spotter (jsTrim cs))

/-- The per-item predicate of `applyFilters` (the source short-circuits with
early `return false`; the conjunction of the eight criteria is the same
function). -/
def matchesItem (resolve : Option (List Char) → CallInfo)
    (bandOf : List Char → Option (List Char)) (modeOf : List Char → Option (List Char))
    (f : DXFilters) (item : DXItem) : Bool :=
  let spotterInfo := resolve item.spotter
  let call := jsOrStr item.dxCall item.call
  let dxInfo := resolve call
  watchlistCheck f.watchlistOnly f.watchlist call &&
  excludeCheck f.excludeList call &&
  zoneCheck f.cqZones spotterInfo.cqZone &&
  zoneCheck f.ituZones spotterInfo.ituZone &&
  continentCheck f.continents spotterInfo.continent dxInfo.continent &&
  bandCheck f.bands (bandOf item.freq) &&
  modeCheck f.modes (modeOf item.comment) &&
  callsignCheck f.callsign call item.spotter

/-- `applyFilters(data, filters)`; `none` models an absent or key-less
filters object, for which the source returns the data unchanged (a config
with every criterion inactive filters nothing either). -/
def applyFilters (resolve : Option (List Char) → CallInfo)
    (bandOf : List Char → Option (List Char)) (modeOf : List Char → Option (List Char))
    (filters : Option DXFilters) (data : List DXItem) : List DXItem :=
  match filters with
  | none => data
  | some f => data.filter (matchesItem resolve bandOf modeOf f)

/-- A metadata resolver that knows only the spotter callsign `EA` (zone 14,
continent EU) and resolves nothing else. -/
def exResolve : Option (List Char) → CallInfo := fun c =>
  if c = some ['E', 'A'] then ⟨some 14, some 37, some ['E', 'U']⟩ else ⟨none, none, none⟩

/-- C5 counterexample: with a continents filter configured and a spotter
resolving inside the selected set, a report whose destination continent does
NOT resolve is kept (`true`), not excluded — the destination side of the
continent criterion fails open. -/
theorem dx_continent_fail_open :
    (exResolve (some ['X', 'X'])).continent = none ∧
    matchesItem exResolve (fun _ => none) (fun _ => none)
      { continents := [['E', 'U']] }
      ⟨some ['X', 'X'], none, some ['E', 'A'], ['1'], []⟩ = true := by decide

/-- C5 amended: every configured criterion that reads the *spotter's*
metadata (CQ zone, ITU zone, continent), the band criterion and the mode
criterion fail closed when the metadata does not resolve; the *destination*
side of the continent criterion instead passes (fails open) when the
destination's continent does not resolve. -/
theorem filter_unresolved_semantics (resolve : Option (List Char) → CallInfo)
    (bandOf modeOf : List Char → Option (List Char)) (f : DXFilters) (item : DXItem) :
    (f.cqZones ≠ [] → (resolve item.spotter).cqZone = none →
      matchesItem resolve bandOf modeOf f item = false) ∧
    (f.ituZones ≠ [] → (resolve item.spotter).ituZone = none →
      matchesItem resolve bandOf modeOf f item = false) ∧
    (f.continents ≠ [] → (resolve item.spotter).continent = none →
      matchesItem resolve bandOf modeOf f item = false) ∧
    (f.bands ≠ [] → bandOf item.freq = none →
      matchesItem resolve bandOf modeOf f item = false) ∧
    (f.modes ≠ [] → modeOf item.comment = none →
      matchesItem resolve bandOf modeOf f item = false) ∧
    (f.continents ≠ [] →
      contTruthyIn (resolve item.spotter).continent f.continents = true →
      (resolve (jsOrStr item.dxCall item.call)).continent = none →
      continentCheck f.continents (resolve item.spotter).continent
        (resolve (jsOrStr item.dxCall item.call)).continent = true) := by
  refine ⟨?_, ?_, ?_, ?_, ?_, ?_⟩
  · intro hne hzone
    have hz : zoneCheck f.cqZones (resolve item.spotter).cqZone = false := by
      simp [zoneCheck, zonePass, hzone, List.length_pos, hne]
    simp [matchesItem, hz]
  · intro hne hzone
    have hz : zoneCheck f.ituZones (resolve item.spotter).ituZone = false := by
      simp [zoneCheck, zonePass, hzone, List.length_pos, hne]
    simp [matchesItem, hz]
  · intro hne hcont
    have hc : continentCheck f.continents (resolve item.spotter).continent
        (resolve (jsOrStr item.dxCall item.call)).continent = false := by
      simp [continentCheck, contTruthyIn, hcont, List.length_pos, hne]
    simp [matchesItem, hc]
  · intro hne hband
    have hb : bandCheck f.bands (bandOf item.freq) = false := by
      simp [bandCheck, hband, List.length_pos, hne]
    simp [matchesItem, hb]
  · intro hne hmode
    have hm : modeCheck f.modes (modeOf item.comment) = false := by
      simp [modeCheck, hmode, List.length_pos, hne]
    simp [matchesItem, hm]
  · intro _ hsp hdx
    have hdx' : contTruthyIn (resolve (jsOrStr item.dxCall item.call)).continent
        f.continents = false := by
      rw [hdx, contTruthyIn]
    simp [continentCheck, hsp, hdx']

/-- Concrete instantiation of `filter_unresolved_semantics`: an unresolved
spotter CQ zone excludes the report when a CQ-zone filter is configured. -/
theorem filter_unresolved_semantics_witness :
    matchesItem exResolve (fun _ => none) (fun _ => none) { cqZones := [14] }
      ⟨some ['X', 'X'], none, some ['Y', 'Y'], ['1'], []⟩ = false :=
  (filter_unresolved_semantics exResolve (fun _ => none) (fun _ => none) { cqZones := [14] }
    ⟨some ['X', 'X'], none, some ['Y', 'Y'], ['1'], []⟩).1 (by decide) (by decide)

/-! ## Locator codec (`gridToLatLon`)

Identical copies in `usePSKReporter.js` (lines 12-32) and `useWSPR.js`
(lines 28-48).  Characters are modelled by their UTF-16 code units
(`charCodeAt`); `parseInt` of a non-digit character yields NaN, modelled as
`none` propagating into the affected coordinate.  The JS guard
`!grid || grid.length < 4` is the single test `length < 4` here, since an
empty string has length 0.
-/

/-- `toUpperCase` on a UTF-16 code unit (ASCII letters, as in locators). -/
def toUpperCode (c : Nat) : Nat := if 97 ≤ c ∧ c ≤ 122 then c - 32 else c

/-- `parseInt` of a single character: a decimal digit yields its value,
anything else NaN (`none`). -/
def parseIntDigit (c : Nat) : Option ℚ :=
  if 48 ≤ c ∧ c ≤ 57 then some ((c : ℚ) - 48) else none

/-- `gridToLatLon(grid)`: decode a Maidenhead locator, returning
`(lat, lon)` of the cell center, or `none` for a missing/short input. -/
def gridToLatLon (grid : List Nat) : Option (Option ℚ × Option ℚ) :=
  if grid.length < 4 then none
  else
    let g := grid.map toUpperCode
    let lon : ℚ := ((g.getD 0 0 : ℚ) - 65) * 20 - 180
    let lat : ℚ := ((g.getD 1 0 : ℚ) - 65) * 10 - 90
    let lonMin : Option ℚ := (parseIntDigit (g.getD 2 0)).map (fun v => v * 2)
    let latMin : Option ℚ := (parseIntDigit (g.getD 3 0)).map (fun v => v * 1)
    if 6 ≤ grid.length then
      let lonSec : ℚ := ((g.getD 4 0 : ℚ) - 65) * (2 / 24)
      let latSec : ℚ := ((g.getD 5 0 : ℚ) - 65) * (1 / 24)
      some (latMin.map (fun v => lat + v + latSec + 0.5 / 24),
            lonMin.map (fun v => lon + v + lonSec + 1 / 24))
    else
      some (latMin.map (fun v => lat + v + 0.5), lonMin.map (fun v => lon + v + 1))

lemma toUpperCode_idem (c : Nat) : toUpperCode (toUpperCode c) = toUpperCode c := by
  unfold toUpperCode
  split_ifs <;> omega

/-- C3: `gridToLatLon` returns `none` exactly for inputs shorter than 4
characters; it is case-insensitive; a 4-character locator (upper-case field
letters, digit squares) decodes to the claimed cell center
(base plus 20°/10° per field letter, 2°/1° per square digit, +1°/+0.5°
center offset); a 6-or-more-character locator additionally adds
(2/24)°/(1/24)° per sub-square letter with 1/24° and 0.5/24° center
offsets. -/
theorem gridToLatLon_spec :
    (∀ g : List Nat, gridToLatLon g = none ↔ g.length < 4) ∧
    (∀ g : List Nat, gridToLatLon (g.map toUpperCode) = gridToLatLon g) ∧
    (∀ a b c d : Nat, 65 ≤ a → a ≤ 90 → 65 ≤ b → b ≤ 90 →
      48 ≤ c → c ≤ 57 → 48 ≤ d → d ≤ 57 →
      gridToLatLon [a, b, c, d] =
        some (some (-90 + ((b : ℚ) - 65) * 10 + ((d : ℚ) - 48) * 1 + 0.5),
              some (-180 + ((a : ℚ) - 65) * 20 + ((c : ℚ) - 48) * 2 + 1))) ∧
    (∀ a b c d e f rest, 65 ≤ a → a ≤ 90 → 65 ≤ b → b ≤ 90 →
      48 ≤ c → c ≤ 57 → 48 ≤ d → d ≤ 57 → 65 ≤ e → e ≤ 90 → 65 ≤ f → f ≤ 90 →
      gridToLatLon (a :: b :: c :: d :: e :: f :: rest) =
        some (some (-90 + ((b : ℚ) - 65) * 10 + ((d : ℚ) - 48) * 1 +
                ((f : ℚ) - 65) * (1 / 24) + 0.5 / 24),
              some (-180 + ((a : ℚ) - 65) * 20 + ((c : ℚ) - 48) * 2 +
                ((e : ℚ) - 65) * (2 / 24) + 1 / 24))) := by
  refine ⟨?_, ?_, ?_, ?_⟩
  · intro g
    unfold gridToLatLon
    by_cases h : g.length < 4
    · simp [h]
    · simp only [if_neg h]
      constructor
      · intro hc
        split at hc <;> simp at hc
      · intro hc
        exact absurd hc h
  · intro g
    unfold gridToLatLon
    have hmap : List.map (toUpperCode ∘ toUpperCode) g = List.map toUpperCode g :=
      List.map_congr_left (fun c _ => toUpperCode_idem c)
    rw [List.length_map, List.map_map, hmap]
  · intro a b c d ha1 ha2 hb1 hb2 hc1 hc2 hd1 hd2
    have hua : toUpperCode a = a := by unfold toUpperCode; split_ifs <;> omega
    have hub : toUpperCode b = b := by unfold toUpperCode; split_ifs <;> omega
    have huc : toUpperCode c = c := by unfold toUpperCode; split_ifs <;> omega
    have hud : toUpperCode d = d := by unfold toUpperCode; split_ifs <;> omega
    have hpc : parseIntDigit c = some ((c : ℚ) - 48) := by
      unfold parseIntDigit
      rw [if_pos ⟨hc1, hc2⟩]
    have hpd : parseIntDigit d = some ((d : ℚ) - 48) := by
      unfold parseIntDigit
      rw [if_pos ⟨hd1, hd2⟩]
    unfold gridToLatLon
    simp [hua, hub, huc, hud, hpc, hpd]
    constructor <;> ring
  · intro a b c d e f rest ha1 ha2 hb1 hb2 hc1 hc2 hd1 hd2 he1 he2 hf1 hf2
    have hua : toUpperCode a = a := by unfold toUpperCode; split_ifs <;> omega
    have hub : toUpperCode b = b := by unfold toUpperCode; split_ifs <;> omega
    have huc : toUpperCode c = c := by unfold toUpperCode; split_ifs <;> omega
    have hud : toUpperCode d = d := by unfold toUpperCode; split_ifs <;> omega
    have hue : toUpperCode e = e := by unfold toUpperCode; split_ifs <;> omega
    have huf : toUpperCode f = f := by unfold toUpperCode; split_ifs <;> omega
    have hpc : parseIntDigit c = some ((c : ℚ) - 48) := by
      unfold parseIntDigit
      rw [if_pos ⟨hc1, hc2⟩]
    have hpd : parseIntDigit d = some ((d : ℚ) - 48) := by
      unfold parseIntDigit
      rw [if_pos ⟨hd1, hd2⟩]
    have hlen4 : ¬((a :: b :: c :: d :: e :: f :: rest).length < 4) := by
      simp [List.length_cons]
    have hlen6 : 6 ≤ (a :: b :: c :: d :: e :: f :: rest).length := by
      simp [List.length_cons]
    unfold gridToLatLon
    rw [if_neg hlen4]
    simp [hlen6, hua, hub, huc, hud, hue, huf, hpc, hpd]
    constructor <;> ring

/-- Concrete instantiation of `gridToLatLon_spec`: "DN70" (codes 68 78 55 48)
decodes to the cell center (40.5, -105). -/
theorem gridToLatLon_spec_witness :
    gridToLatLon [68, 78, 55, 48] = some (some (40.5 : ℚ), some (-105 : ℚ)) := by
  have h := gridToLatLon_spec.2.2.1 68 78 55 48 (by decide) (by decide) (by decide)
    (by decide) (by decide) (by decide) (by decide) (by decide)
  rw [h]
  norm_num

/-! ## Signal classifiers

`getSNRColor` / `getLineWeight` from `useWSPR.js` (identical in both plugin
versions) and `getSnrColor` from `PSKReporterPanel.jsx`.  An absent SNR
(`null`/`undefined`) is `none`.
-/

/-- `getSNRColor` (useWSPR.js). -/
def getSNRColor (snr : Option ℚ) : String :=
  match snr with
  | none => "#888888"
  | some s =>
    if s < -20 then "#ff0000"
    else if s < -10 then "#ff6600"
    else if s < 0 then "#ffaa00"
    else if s < 5 then "#ffff00"
    else "#00ff00"

/-- `getLineWeight` (useWSPR.js). -/
def getLineWeight (snr : Option ℚ) : ℚ :=
  match snr with
  | none => 1
  | some s =>
    if s < -20 then 1
    else if s < -10 then 1.5
    else if s < 0 then 2
    else if s < 5 then 2.5
    else 3

/-- `getSnrColor` (PSKReporterPanel.jsx). -/
def getSnrColor (snr : Option ℚ) : String :=
  match snr with
  | none => "var(--text-muted)"
  | some s =>
    if 0 ≤ s then "#4ade80"
    else if -10 ≤ s then "#fbbf24"
    else if -15 ≤ s then "#f97316"
    else "#ef4444"

/-- The five ordered SNR bands of the specification (band 0 = absent SNR). -/
def snrBand (snr : Option ℚ) : Nat :=
  match snr with
  | none => 0
  | some s =>
    if s < -20 then 1
    else if s < -10 then 2
    else if s < 0 then 3
    else if s < 5 then 4
    else 5

/-- Color table of `getSNRColor` indexed by spec band. -/
def bandColor (b : Nat) : String :=
  if b = 0 then "#888888"
  else if b = 1 then "#ff0000"
  else if b = 2 then "#ff6600"
  else if b = 3 then "#ffaa00"
  else if b = 4 then "#ffff00"
  else "#00ff00"

/-- Weight table of `getLineWeight` indexed by spec band. -/
def bandWeight (b : Nat) : ℚ :=
  if b = 0 then 1
  else if b = 1 then 1
  else if b = 2 then 1.5
  else if b = 3 then 2
  else if b = 4 then 2.5
  else 3

lemma getSNRColor_eq_bandColor (s : Option ℚ) : getSNRColor s = bandColor (snrBand s) := by
  cases s with
  | none => rfl
  | some q =>
    simp only [getSNRColor, snrBand]
    split_ifs <;> rfl

lemma getLineWeight_eq_bandWeight (s : Option ℚ) : getLineWeight s = bandWeight (snrBand s) := by
  cases s with
  | none => rfl
  | some q =>
    simp only [getLineWeight, snrBand]
    split_ifs <;> rfl

lemma snrBand_le_five (s : Option ℚ) : snrBand s ≤ 5 := by
  cases s with
  | none => exact Nat.zero_le 5
  | some q =>
    simp only [snrBand]
    split_ifs <;> omega

lemma one_le_snrBand_some (q : ℚ) : 1 ≤ snrBand (some q) := by
  simp only [snrBand]
  split_ifs <;> omega

lemma one_le_bandWeight (b : Nat) : 1 ≤ bandWeight b := by
  unfold bandWeight
  split_ifs <;> norm_num

lemma bandColor_ne_neutral {b : Nat} (h1 : 1 ≤ b) (h2 : b ≤ 5) :
    bandColor b ≠ bandColor 0 := by
  interval_cases b <;> decide

lemma bandWeight_strictMono {b c : Nat} (h1 : 1 ≤ b) (hbc : b < c) (hc : c ≤ 5) :
    bandWeight b < bandWeight c := by
  have hb5 : b ≤ 5 := by omega
  interval_cases b <;> interval_cases c <;> norm_num [bandWeight]

/-- C8 counterexample: `getSnrColor` in `PSKReporterPanel` does not respect
the five-band contract of `getSNRColor`: SNRs -17 and -25 lie in different
spec bands (and get different colors from `getSNRColor`), yet `getSnrColor`
identifies them; likewise 3 and 7 lie in different spec bands but receive
the same panel color. -/
theorem panel_classifier_band_mismatch :
    snrBand (some (-17)) ≠ snrBand (some (-25)) ∧
    getSNRColor (some (-17)) ≠ getSNRColor (some (-25)) ∧
    getSnrColor (some (-17)) = getSnrColor (some (-25)) ∧
    snrBand (some 7) ≠ snrBand (some 3) ∧
    getSnrColor (some 7) = getSnrColor (some 3) := by decide

/-- C8 amended: the two `useWSPR` classifiers do share the five half-open
bands with boundaries -20, -10, 0, 5 (they are constant on each spec band);
the absent-SNR band gets its own neutral color and the minimum weight; and
the weight is strictly monotone in the band over present SNRs.  The panel's
`getSnrColor` (boundaries -15, -10, 0) is excluded from this contract by the
counterexample. -/
theorem wspr_classifiers_follow_bands :
    (∀ s t : Option ℚ, snrBand s = snrBand t →
      getSNRColor s = getSNRColor t ∧ getLineWeight s = getLineWeight t) ∧
    (∀ s : Option ℚ, getLineWeight none ≤ getLineWeight s) ∧
    (∀ q : ℚ, getSNRColor (some q) ≠ getSNRColor none) ∧
    (∀ q r : ℚ, snrBand (some q) < snrBand (some r) →
      getLineWeight (some q) < getLineWeight (some r)) := by
  refine ⟨?_, ?_, ?_, ?_⟩
  · intro s t h
    rw [getSNRColor_eq_bandColor, getSNRColor_eq_bandColor,
      getLineWeight_eq_bandWeight, getLineWeight_eq_bandWeight, h]
    exact ⟨rfl, rfl⟩
  · intro s
    rw [getLineWeight_eq_bandWeight, getLineWeight_eq_bandWeight]
    have h0 : bandWeight (snrBand none) = 1 := rfl
    rw [h0]
    exact one_le_bandWeight _
  · intro q
    rw [getSNRColor_eq_bandColor, getSNRColor_eq_bandColor]
    exact bandColor_ne_neutral (one_le_snrBand_some q) (snrBand_le_five (some q))
  · intro q r h
    rw [getLineWeight_eq_bandWeight, getLineWeight_eq_bandWeight]
    exact bandWeight_strictMono (one_le_snrBand_some q) h (snrBand_le_five (some r))

/-- Concrete instantiation of `wspr_classifiers_follow_bands`: -25 and -30
share the weakest band, hence color and weight. -/
theorem wspr_classifiers_follow_bands_witness :
    getSNRColor (some (-25)) = getSNRColor (some (-30)) :=
  (wspr_classifiers_follow_bands.1 (some (-25)) (some (-30)) (by norm_num [snrBand])).1

/-! ## usePSKReporter report processing

The `processedTx` / `processedRx` pipelines: enrich each raw report with
coordinates resolved from its grid locator, keep only reports whose `lat`
and `lon` are both truthy, and cap at `maxSpots`.
-/

/-- One raw PSKReporter report (fields used by the pipeline). -/
structure PSKReport where
  lat : Option ℚ
  lon : Option ℚ
  receiverGrid : Option (List Nat)
  senderGrid : Option (List Nat)
  snr : Option ℚ
  age : Option ℚ
  timestamp : ℚ
deriving DecidableEq

/-- JS `a || b` on possibly-missing numbers: `undefined`, NaN and `0` are
falsy. -/
def jsOrNum (a b : Option ℚ) : Option ℚ :=
  match a with
  | some x => if x = 0 then b else some x
  | none => b

/-- `grid ? gridToLatLon(grid)?.lat : null`. -/
def gridLat (g : Option (List Nat)) : Option ℚ :=
  match g with
  | some gr =>
    match gridToLatLon gr with
    | some p => p.1
    | none => none
  | none => none

/-- `grid ? gridToLatLon(grid)?.lon : null`. -/
def gridLon (g : Option (List Nat)) : Option ℚ :=
  match g with
  | some gr =>
    match gridToLatLon gr with
    | some p => p.2
    | none => none
  | none => none

/-- `age: r.age || Math.floor((Date.now() - r.timestamp) / 60000)`. -/
def ageOf (r : PSKReport) (now : ℚ) : ℚ :=
  match r.age with
  | some a => if a = 0 then ((⌊(now - r.timestamp) / 60000⌋ : Int) : ℚ) else a
  | none => ((⌊(now - r.timestamp) / 60000⌋ : Int) : ℚ)

/-- The TX enrichment step (receiver-side grid). -/
def enrichTx (now : ℚ) (r : PSKReport) : PSKReport :=
  { r with
    lat := jsOrNum r.lat (gridLat r.receiverGrid),
    lon := jsOrNum r.lon (gridLon r.receiverGrid),
    age := some (ageOf r now) }

/-- The RX enrichment step (sender-side grid). -/
def enrichRx (now : ℚ) (r : PSKReport) : PSKReport :=
  { r with
    lat := jsOrNum r.lat (gridLat r.senderGrid),
    lon := jsOrNum r.lon (gridLon r.senderGrid),
    age := some (ageOf r now) }

/-- JS truthiness of a possibly-missing number (`0`, NaN and `undefined`
are falsy). -/
def truthyNum : Option ℚ → Bool
  | some x => decide (x ≠ 0)
  | none => false

/-- `processedTx`: map-enrich, `.filter(r => r.lat && r.lon)`,
`.slice(0, maxSpots)`. -/
def processedTx (txData : List PSKReport) (maxSpots : Nat) (now : ℚ) : List PSKReport :=
  ((txData.map (enrichTx now)).filter (fun r => truthyNum r.lat && truthyNum r.lon)).take maxSpots

/-- `processedRx`: same pipeline over the sender grid. -/
def processedRx (rxData : List PSKReport) (maxSpots : Nat) (now : ℚ) : List PSKReport :=
  ((rxData.map (enrichRx now)).filter (fun r => truthyNum r.lat && truthyNum r.lon)).take maxSpots

/-- C10: a processed report is retained only when both resolved coordinates
are truthy; a report with a server-supplied latitude (or longitude) equal to
exactly 0 and no grid locator to fall back on is excluded from the view even
though its coordinate is valid (the `||` fallback already treats 0 as falsy,
and the filter rejects the resulting `null`); every enriched report with
both coordinates truthy survives the filter (and is then subject only to the
`maxSpots` cap, which bounds the output length); symmetrically for the RX
view. -/
theorem psk_reports_truthy_filter (txData rxData : List PSKReport) (maxSpots : Nat) (now : ℚ) :
    (∀ r ∈ processedTx txData maxSpots now, truthyNum r.lat = true ∧ truthyNum r.lon = true) ∧
    (∀ r : PSKReport, r.lat = some 0 → r.receiverGrid = none →
      enrichTx now r ∉ processedTx txData maxSpots now) ∧
    (∀ r : PSKReport, r.lon = some 0 → r.receiverGrid = none →
      enrichTx now r ∉ processedTx txData maxSpots now) ∧
    (∀ r ∈ txData.map (enrichTx now), truthyNum r.lat = true → truthyNum r.lon = true →
      r ∈ (txData.map (enrichTx now)).filter (fun r => truthyNum r.lat && truthyNum r.lon)) ∧
    (processedTx txData maxSpots now).length ≤ maxSpots ∧
    (∀ r ∈ processedRx rxData maxSpots now, truthyNum r.lat = true ∧ truthyNum r.lon = true) ∧
    (∀ r : PSKReport, r.lat = some 0 → r.senderGrid = none →
      enrichRx now r ∉ processedRx rxData maxSpots now) ∧
    (processedRx rxData maxSpots now).length ≤ maxSpots := by
  have hmemTx : ∀ r ∈ processedTx txData maxSpots now,
      truthyNum r.lat = true ∧ truthyNum r.lon = true := by
    intro r hr
    have hr' := List.mem_filter.mp (List.take_subset _ _ hr)
    exact ⟨(Bool.and_eq_true _ _ ▸ hr'.2).1, (Bool.and_eq_true _ _ ▸ hr'.2).2⟩
  have hmemRx : ∀ r ∈ processedRx rxData maxSpots now,
      truthyNum r.lat = true ∧ truthyNum r.lon = true := by
    intro r hr
    have hr' := List.mem_filter.mp (List.take_subset _ _ hr)
    exact ⟨(Bool.and_eq_true _ _ ▸ hr'.2).1, (Bool.and_eq_true _ _ ▸ hr'.2).2⟩
  refine ⟨hmemTx, ?_, ?_, ?_, ?_, hmemRx, ?_, ?_⟩
  · intro r hlat hgrid hmem
    have h := (hmemTx _ hmem).1
    have hnone : (enrichTx now r).lat = none := by
      simp [enrichTx, hlat, hgrid, jsOrNum, gridLat]
    rw [hnone] at h
    simp [truthyNum] at h
  · intro r hlon hgrid hmem
    have h := (hmemTx _ hmem).2
    have hnone : (enrichTx now r).lon = none := by
      simp [enrichTx, hlon, hgrid, jsOrNum, gridLon]
    rw [hnone] at h
    simp [truthyNum] at h
  · intro r hr hlat hlon
    exact List.mem_filter.mpr ⟨hr, by rw [hlat, hlon]; rfl⟩
  · simp [processedTx, List.length_take]
  · intro r hlat hgrid hmem
    have h := (hmemRx _ hmem).1
    have hnone : (enrichRx now r).lat = none := by
      simp [enrichRx, hlat, hgrid, jsOrNum, gridLat]
    rw [hnone] at h
    simp [truthyNum] at h
  · simp [processedRx, List.length_take]

/-- A report on the equator (latitude exactly 0) with a valid longitude. -/
def equatorReport : PSKReport :=
  ⟨some 0, some 10, none, none, some (-5), some 3, 0⟩

/-- Concrete instantiation of `psk_reports_truthy_filter`: the equator
report is dropped from the TX view. -/
theorem psk_reports_truthy_filter_witness :
    enrichTx 0 equatorReport ∉ processedTx [equatorReport] 100 0 :=
  (psk_reports_truthy_filter [equatorReport] [] 100 0).2.1 equatorReport rfl rfl

/-! ## Great-circle interpolation (`getGreatCirclePath`, useWSPR.js v1.1.0)

Spherical linear interpolation in an idealized real-number model.  A JS
number that may be non-finite is an `Option ℝ`: `none` stands for NaN (or
±Infinity); arithmetic propagates it and division by zero produces it —
exactly what the JS code computes at coincident endpoints, where
`d = acos(1) = 0` and the weights are `0/0 = NaN`.
-/

noncomputable section

/-- `toRad`: `(deg * Math.PI) / 180`. -/
def toRad (deg : ℝ) : ℝ := deg * Real.pi / 180

/-- `toDeg`: `(rad * 180) / Math.PI`. -/
def toDeg (rad : ℝ) : ℝ := rad * 180 / Real.pi

/-- `Math.atan2 y x` on finite inputs: the argument of the complex number
`x + y*i` (range `(-π, π]`; `atan2 0 0 = 0`, as in JS). -/
def jsAtan2 (y x : ℝ) : ℝ := Complex.arg (Complex.mk x y)

/-- JS addition on possibly-non-finite numbers. -/
def jadd : Option ℝ → Option ℝ → Option ℝ
  | some a, some b => some (a + b)
  | _, _ => none

/-- JS multiplication on possibly-non-finite numbers. -/
def jmul : Option ℝ → Option ℝ → Option ℝ
  | some a, some b => some (a * b)
  | _, _ => none

/-- JS division: a zero denominator yields a non-finite result (NaN for
`0/0`, ±Infinity otherwise — both collapsed to `none`). -/
def jdiv : Option ℝ → Option ℝ → Option ℝ
  | some a, some b => if b = 0 then none else some (a / b)
  | _, _ => none

/-- `Math.sqrt` lifted to possibly-non-finite numbers. -/
def jsqrt : Option ℝ → Option ℝ
  | some a => some (Real.sqrt a)
  | none => none

/-- `Math.atan2` lifted to possibly-non-finite numbers. -/
def jatan2 : Option ℝ → Option ℝ → Option ℝ
  | some y, some x => some (jsAtan2 y x)
  | _, _ => none

/-- The angular separation `d`: spherical law of cosines
(`Math.acos` agrees with `Real.arccos` on `[-1, 1]`). -/
def gcD (lat1 lon1 lat2 lon2 : ℝ) : ℝ :=
  Real.arccos (Real.sin (toRad lat1) * Real.sin (toRad lat2) +
    Real.cos (toRad lat1) * Real.cos (toRad lat2) * Real.cos (toRad lon2 - toRad lon1))

/-- Loop body of `getGreatCirclePath` at index `i` of `numPoints`: the
pushed `[lat, lon]` pair, in degrees. -/
def gcPoint (lat1 lon1 lat2 lon2 : ℝ) (numPoints i : Nat) : Option ℝ × Option ℝ :=
  let lat1Rad := toRad lat1
  let lon1Rad := toRad lon1
  let lat2Rad := toRad lat2
  let lon2Rad := toRad lon2
  let d := gcD lat1 lon1 lat2 lon2
  let f : ℝ := (i : ℝ) / (numPoints : ℝ)
  let A := jdiv (some (Real.sin ((1 - f) * d))) (some (Real.sin d))
  let B := jdiv (some (Real.sin (f * d))) (some (Real.sin d))
  let x := jadd (jmul (jmul A (some (Real.cos lat1Rad))) (some (Real.cos lon1Rad)))
    (jmul (jmul B (some (Real.cos lat2Rad))) (some (Real.cos lon2Rad)))
  let y := jadd (jmul (jmul A (some (Real.cos lat1Rad))) (some (Real.sin lon1Rad)))
    (jmul (jmul B (some (Real.cos lat2Rad))) (some (Real.sin lon2Rad)))
  let z := jadd (jmul A (some (Real.sin lat1Rad))) (jmul B (some (Real.sin lat2Rad)))
  let lat := jatan2 z (jsqrt (jadd (jmul x x) (jmul y y)))
  let lon := jatan2 y x
  (lat.map toDeg, lon.map toDeg)

/-- `getGreatCirclePath(lat1, lon1, lat2, lon2, numPoints)`: the
`numPoints + 1` points pushed by `for (i = 0; i <= numPoints; i++)`. -/
def getGreatCirclePath (lat1 lon1 lat2 lon2 : ℝ) (numPoints : Nat) :
    List (Option ℝ × Option ℝ) :=
  (List.range (numPoints + 1)).map (gcPoint lat1 lon1 lat2 lon2 numPoints)

end

lemma gcD_self (lat lon : ℝ) : gcD lat lon lat lon = 0 := by
  unfold gcD
  rw [sub_self, Real.cos_zero]
  have h : Real.sin (toRad lat) * Real.sin (toRad lat) +
      Real.cos (toRad lat) * Real.cos (toRad lat) * 1 = 1 := by
    have hs := Real.sin_sq_add_cos_sq (toRad lat)
    nlinarith [hs]
  rw [h, Real.arccos_one]

lemma gcPoint_self (lat lon : ℝ) (n i : Nat) : gcPoint lat lon lat lon n i = (none, none) := by
  simp [gcPoint, gcD_self, mul_zero, Real.sin_zero, jdiv, jmul, jadd, jatan2, jsqrt]

/-- C2 amended: the interpolator has no epsilon special case: for coincident
endpoints the angular separation is exactly 0, the sine-ratio weights are
`0/0`, and every coordinate of every output point is NaN — the degenerate
case is not recovered and NaN coordinates are propagated into the output. -/
theorem coincident_path_all_nan (lat lon : ℝ) (numPoints : Nat) :
    getGreatCirclePath lat lon lat lon numPoints =
      List.replicate (numPoints + 1) ((none : Option ℝ), (none : Option ℝ)) := by
  unfold getGreatCirclePath
  rw [List.eq_replicate_iff]
  constructor
  · simp
  · intro b hb
    rcases List.mem_map.mp hb with ⟨i, _, rfl⟩
    exact gcPoint_self lat lon numPoints i

/-- C2 counterexample: at the coincident pair (0,0)-(0,0) with one step, the
first output point's coordinates are NaN (`none`), not the claimed valid
repeat of the endpoint `(some 0, some 0)`. -/
theorem coincident_path_nan_counterexample :
    (getGreatCirclePath 0 0 0 0 1)[0]? = some ((none : Option ℝ), (none : Option ℝ)) ∧
    some ((none : Option ℝ), (none : Option ℝ)) ≠
      some ((some (0 : ℝ) : Option ℝ), (some (0 : ℝ) : Option ℝ)) := by
  constructor
  · unfold getGreatCirclePath
    rw [List.getElem?_map, List.getElem?_range (by norm_num)]
    rw [Option.map_some']
    rw [gcPoint_self]
  · simp

lemma toDeg_toRad (x : ℝ) : toDeg (toRad x) = x := by
  unfold toRad toDeg
  field_simp

lemma toRad_lt_pi_div_two {x : ℝ} (h : x < 90) : toRad x < Real.pi / 2 := by
  unfold toRad
  nlinarith [mul_pos (sub_pos.mpr h) Real.pi_pos]

lemma neg_pi_div_two_lt_toRad {x : ℝ} (h : -90 < x) : -(Real.pi / 2) < toRad x := by
  unfold toRad
  nlinarith [mul_pos (by linarith : (0 : ℝ) < x + 90) Real.pi_pos]

lemma toRad_le_pi {x : ℝ} (h : x ≤ 180) : toRad x ≤ Real.pi := by
  unfold toRad
  nlinarith [mul_nonneg (sub_nonneg.mpr h) Real.pi_pos.le]

lemma neg_pi_lt_toRad {x : ℝ} (h : -180 < x) : -Real.pi < toRad x := by
  unfold toRad
  nlinarith [mul_pos (by linarith : (0 : ℝ) < x + 180) Real.pi_pos]

lemma jsAtan2_cos_sin {θ : ℝ} (h1 : -Real.pi < θ) (h2 : θ ≤ Real.pi) :
    jsAtan2 (Real.sin θ) (Real.cos θ) = θ := by
  unfold jsAtan2
  have hmk : Complex.mk (Real.cos θ) (Real.sin θ) =
      (Real.cos θ : ℂ) + (Real.sin θ : ℂ) * Complex.I := by
    refine Complex.ext ?_ ?_ <;>
      simp only [Complex.add_re, Complex.add_im, Complex.mul_re, Complex.mul_im,
        Complex.ofReal_re, Complex.ofReal_im, Complex.I_re, Complex.I_im] <;>
      ring
  rw [hmk, Complex.ofReal_cos, Complex.ofReal_sin]
  exact Complex.arg_cos_add_sin_mul_I ⟨h1, h2⟩

lemma jsAtan2_scaled {c θ : ℝ} (hc : 0 < c) (h1 : -Real.pi < θ) (h2 : θ ≤ Real.pi) :
    jsAtan2 (c * Real.sin θ) (c * Real.cos θ) = θ := by
  have hmk : Complex.mk (c * Real.cos θ) (c * Real.sin θ) =
      (c : ℂ) * Complex.mk (Real.cos θ) (Real.sin θ) := by
    refine Complex.ext ?_ ?_ <;>
      simp only [Complex.mul_re, Complex.mul_im, Complex.ofReal_re, Complex.ofReal_im] <;>
      ring
  unfold jsAtan2
  rw [hmk, Complex.arg_real_mul _ hc]
  exact jsAtan2_cos_sin h1 h2

lemma lat_recover {p lam : ℝ} (h1 : -(Real.pi / 2) < p) (h2 : p < Real.pi / 2) :
    jsAtan2 (Real.sin p)
      (Real.sqrt (Real.cos p * Real.cos lam * (Real.cos p * Real.cos lam) +
        Real.cos p * Real.sin lam * (Real.cos p * Real.sin lam))) = p := by
  have hc : 0 < Real.cos p := Real.cos_pos_of_mem_Ioo ⟨h1, h2⟩
  have harg : Real.cos p * Real.cos lam * (Real.cos p * Real.cos lam) +
      Real.cos p * Real.sin lam * (Real.cos p * Real.sin lam) = Real.cos p ^ 2 := by
    have hs := Real.sin_sq_add_cos_sq lam
    nlinarith [hs]
  rw [harg, Real.sqrt_sq hc.le]
  have hπ := Real.pi_pos
  exact jsAtan2_cos_sin (by linarith) (by linarith)

lemma lon_recover {p lam : ℝ} (hc : 0 < Real.cos p) (h1 : -Real.pi < lam)
    (h2 : lam ≤ Real.pi) :
    jsAtan2 (Real.cos p * Real.sin lam) (Real.cos p * Real.cos lam) = lam :=
  jsAtan2_scaled hc h1 h2

lemma gcPoint_zero (lat1 lon1 lat2 lon2 : ℝ) (n : Nat)
    (hd : Real.sin (gcD lat1 lon1 lat2 lon2) ≠ 0)
    (h1a : -90 < lat1) (h1b : lat1 < 90) (h1c : -180 < lon1) (h1d : lon1 ≤ 180) :
    gcPoint lat1 lon1 lat2 lon2 n 0 = (some lat1, some lon1) := by
  have hp1 : -(Real.pi / 2) < toRad lat1 := neg_pi_div_two_lt_toRad h1a
  have hp2 : toRad lat1 < Real.pi / 2 := toRad_lt_pi_div_two h1b
  have hl1 : -Real.pi < toRad lon1 := neg_pi_lt_toRad h1c
  have hl2 : toRad lon1 ≤ Real.pi := toRad_le_pi h1d
  have hc : 0 < Real.cos (toRad lat1) := Real.cos_pos_of_mem_Ioo ⟨hp1, hp2⟩
  simp only [gcPoint, Nat.cast_zero, zero_div, sub_zero, one_mul, zero_mul,
    Real.sin_zero, jdiv, if_neg hd, div_self hd, zero_div, jmul, jadd, jsqrt, jatan2,
    add_zero, zero_add, mul_zero, Option.map_some']
  rw [lat_recover hp1 hp2, lon_recover hc hl1 hl2, toDeg_toRad, toDeg_toRad]

lemma gcPoint_last (lat1 lon1 lat2 lon2 : ℝ) (n : Nat) (hn : n ≠ 0)
    (hd : Real.sin (gcD lat1 lon1 lat2 lon2) ≠ 0)
    (h2a : -90 < lat2) (h2b : lat2 < 90) (h2c : -180 < lon2) (h2d : lon2 ≤ 180) :
    gcPoint lat1 lon1 lat2 lon2 n n = (some lat2, some lon2) := by
  have hp1 : -(Real.pi / 2) < toRad lat2 := neg_pi_div_two_lt_toRad h2a
  have hp2 : toRad lat2 < Real.pi / 2 := toRad_lt_pi_div_two h2b
  have hl1 : -Real.pi < toRad lon2 := neg_pi_lt_toRad h2c
  have hl2 : toRad lon2 ≤ Real.pi := toRad_le_pi h2d
  have hc : 0 < Real.cos (toRad lat2) := Real.cos_pos_of_mem_Ioo ⟨hp1, hp2⟩
  have hnR : ((n : ℝ)) ≠ 0 := Nat.cast_ne_zero.mpr hn
  simp only [gcPoint, div_self hnR, sub_self, zero_mul, one_mul,
    Real.sin_zero, jdiv, if_neg hd, div_self hd, zero_div, jmul, jadd, jsqrt, jatan2,
    add_zero, zero_add, mul_zero, Option.map_some']
  rw [lat_recover hp1 hp2, lon_recover hc hl1 hl2, toDeg_toRad, toDeg_toRad]

/-- C4: for endpoints with interior coordinates (latitude in (-90, 90),
longitude in (-180, 180]) and non-degenerate angular separation
(`sin d ≠ 0`), the path has exactly `steps + 1` points, its first point is
exactly `a` and its last point exactly `b` (exact recovery in the real
model, which subsumes the claim's floating tolerance; the excluded boundary
coordinates -180 and ±90 depend on the rounding of π and are not decidable
in an exact real model). -/
theorem gc_endpoints (lat1 lon1 lat2 lon2 : ℝ) (n : Nat) (hn : 1 ≤ n)
    (h1a : -90 < lat1) (h1b : lat1 < 90) (h1c : -180 < lon1) (h1d : lon1 ≤ 180)
    (h2a : -90 < lat2) (h2b : lat2 < 90) (h2c : -180 < lon2) (h2d : lon2 ≤ 180)
    (hd : Real.sin (gcD lat1 lon1 lat2 lon2) ≠ 0) :
    (getGreatCirclePath lat1 lon1 lat2 lon2 n).length = n + 1 ∧
    (getGreatCirclePath lat1 lon1 lat2 lon2 n)[0]? = some (some lat1, some lon1) ∧
    (getGreatCirclePath lat1 lon1 lat2 lon2 n)[n]? = some (some lat2, some lon2) := by
  refine ⟨by simp [getGreatCirclePath], ?_, ?_⟩
  · unfold getGreatCirclePath
    rw [List.getElem?_map, List.getElem?_range (Nat.succ_pos n), Option.map_some']
    rw [gcPoint_zero lat1 lon1 lat2 lon2 n hd h1a h1b h1c h1d]
  · unfold getGreatCirclePath
    rw [List.getElem?_map, List.getElem?_range (Nat.lt_succ_self n), Option.map_some']
    rw [gcPoint_last lat1 lon1 lat2 lon2 n (by omega) hd h2a h2b h2c h2d]

lemma gcD_eval_witness : gcD 0 0 0 90 = Real.pi / 2 := by
  have h90 : toRad 90 = Real.pi / 2 := by
    unfold toRad
    ring
  have h0 : toRad 0 = 0 := by
    unfold toRad
    ring
  unfold gcD
  rw [h90, h0, sub_zero, Real.cos_pi_div_two, Real.sin_zero, Real.cos_zero]
  norm_num [Real.arccos_zero]

/-- Concrete instantiation of `gc_endpoints`: the quarter-circle from (0,0)
to (0,90) with one step has first point (0,0) and last point (0,90). -/
theorem gc_endpoints_witness :
    Real.sin (gcD 0 0 0 90) ≠ 0 ∧
    (getGreatCirclePath 0 0 0 90 1)[0]? = some (some 0, some 0) ∧
    (getGreatCirclePath 0 0 0 90 1)[1]? = some (some 0, some 90) := by
  have hd : Real.sin (gcD 0 0 0 90) ≠ 0 := by
    rw [gcD_eval_witness, Real.sin_pi_div_two]
    exact one_ne_zero
  have h := gc_endpoints 0 0 0 90 1 le_rfl (by norm_num) (by norm_num) (by norm_num)
    (by norm_num) (by norm_num) (by norm_num) (by norm_num) (by norm_num) hd
  exact ⟨hd, h.2.1, h.2.2⟩
